import Mathlib

/-!
Verification of the WebRTC signaling relay (backend/app.py) against its
specification.  The Python module is embedded shallowly: the global dicts
become functions from identifiers to optional records, each HTTP or
websocket handler becomes a pure state-passing function, time is a natural
number of seconds supplied to each call, and the success or failure of a
websocket send is an oracle boolean supplied by the environment.
-/

namespace SignalServer

/-- Opaque JSON-like payload (a Python dict of signaling data), modelled as
an association list of string keys and values.  The server never interprets
payload contents, so this representation is only required to support
equality. -/
abbrev Signal := List (String × String)

/-- Record `PeerData` from app.py: the pending offer, answer, accumulated
ICE candidates, and the last-update timestamp (seconds). -/
structure PeerData where
  offer : Option Signal := none
  answer : Option Signal := none
  candidates : List Signal := []
  last_updated : Nat
deriving DecidableEq, Repr

/-- The global dict `peers`, keyed by peer identifier. -/
abbrev PeerMap := String → Option PeerData

/-- Construction `PeerData()` in Python: all fields default, with
`last_updated` set by its default factory to the current time. -/
def PeerData.fresh (now : Nat) : PeerData :=
  { offer := none, answer := none, candidates := [], last_updated := now }

/-- Function `get_peer_data`: return the existing record for `peer_id`, or
insert and return a fresh one. -/
def get_peer_data (now : Nat) (peers : PeerMap) (peer_id : String) :
    PeerData × PeerMap :=
  match peers peer_id with
  | some d => (d, peers)
  | none =>
    let d := PeerData.fresh now
    (d, fun q => if q = peer_id then some d else peers q)

/-- Websocket channel handle, identified by a number. -/
abbrev Channel := Nat

/-- The registry dict `active_connections` of the ConnectionManager. -/
abbrev Conns := String → Option Channel

/-- Message sent over a push channel by the server. -/
inductive WireMsg
  | offerMsg (fromPeer : String) (signal : Signal)
  | pong
deriving DecidableEq, Repr

/-- Observable operation performed on a websocket channel. -/
inductive ChanEffect
  | accept (ch : Channel)
  | sendText (ch : Channel) (m : WireMsg)
deriving DecidableEq, Repr

namespace ConnectionManager

/-- Method `connect`: accept the websocket, then register it under
`client_id`, replacing any previous entry. -/
def connect (conns : Conns) (ws : Channel) (client_id : String) :
    Conns × List ChanEffect :=
  ((fun q => if q = client_id then some ws else conns q), [ChanEffect.accept ws])

/-- Method `disconnect`: remove the mapping for `client_id` when present; a
no-op when absent. -/
def disconnect (conns : Conns) (client_id : String) : Conns :=
  fun q => if q = client_id then none else conns q

/-- Method `send_personal_message`: when a channel is registered, attempt
the send (`sendOk` is the environment oracle for its success); return true
on success, and on failure call `disconnect` and return false.  When no
channel is registered, return false.  The result carries the new registry
and the channel operations performed. -/
def send_personal_message (sendOk : Bool) (conns : Conns) (message : WireMsg)
    (client_id : String) : Bool × Conns × List ChanEffect :=
  match conns client_id with
  | some ch =>
    if sendOk then (true, conns, [ChanEffect.sendText ch message])
    else (false, disconnect conns client_id, [])
  | none => (false, conns, [])

end ConnectionManager

/-- Combined mutable state of the process: the mailbox dict and the
registry dict. -/
structure ServerState where
  peers : PeerMap
  conns : Conns

/-- Request body `SignalData` of the offer and answer endpoints. -/
structure SignalData where
  from_peer : String
  to_peer : String
  signal : Signal

/-- Request body `IceCandidate` of the ice-candidate endpoint. -/
structure IceCandidate where
  from_peer : String
  to_peer : String
  candidate : Signal

/-- Handler of POST /offer: store the offer on the recipient record,
refresh its timestamp, best-effort push an offer message to the recipient
channel, and return the status string unconditionally. -/
def handle_offer (now : Nat) (sendOk : Bool) (s : SignalData)
    (st : ServerState) : ServerState × List ChanEffect × String :=
  let r := get_peer_data now st.peers s.to_peer
  let d := { r.1 with offer := some s.signal, last_updated := now }
  let peers2 : PeerMap := fun q => if q = s.to_peer then some d else r.2 q
  let sent := ConnectionManager.send_personal_message sendOk st.conns
    (WireMsg.offerMsg s.from_peer s.signal) s.to_peer
  ({ peers := peers2, conns := sent.2.1 }, sent.2.2, "Offer received")

/-- Handler of POST /answer: store the answer on the recipient record,
refresh its timestamp, and return the status string.  No push is
attempted. -/
def handle_answer (now : Nat) (s : SignalData) (st : ServerState) :
    ServerState × List ChanEffect × String :=
  let r := get_peer_data now st.peers s.to_peer
  let d := { r.1 with answer := some s.signal, last_updated := now }
  let peers2 : PeerMap := fun q => if q = s.to_peer then some d else r.2 q
  ({ peers := peers2, conns := st.conns }, [], "Answer received")

/-- Handler of POST /ice-candidate: append the candidate to the recipient
record, refresh its timestamp, and return the status string.  No push is
attempted. -/
def handle_ice_candidate (now : Nat) (c : IceCandidate) (st : ServerState) :
    ServerState × List ChanEffect × String :=
  let r := get_peer_data now st.peers c.to_peer
  let d := { r.1 with
    candidates := r.1.candidates ++ [c.candidate],
    last_updated := now }
  let peers2 : PeerMap := fun q => if q = c.to_peer then some d else r.2 q
  ({ peers := peers2, conns := st.conns }, [], "ICE candidate received")

/-- Response body of GET /check/{peer_id}. -/
inductive CheckResponse
  | no_peer
  | check (offer : Option Signal) (answer : Option Signal)
      (has_candidates : Bool) (candidates : List Signal) (timestamp : Nat)
deriving DecidableEq, Repr

/-- Handler of GET /check/{peer_id}: when no record exists return the
no-peer response and leave the map untouched; otherwise return a snapshot
of the record and then clear its answer and candidates, leaving the offer
and the timestamp field as they were. -/
def check_signals (now : Nat) (peers : PeerMap) (peer_id : String) :
    CheckResponse × PeerMap :=
  match peers peer_id with
  | none => (CheckResponse.no_peer, peers)
  | some d =>
    (CheckResponse.check d.offer d.answer (decide (0 < d.candidates.length))
        d.candidates now,
      fun q => if q = peer_id then
          some { d with answer := none, candidates := [] }
        else peers q)

/-- Expiry TTL of the sweep, timedelta(minutes=30) in seconds. -/
def TTL_SECONDS : Nat := 30 * 60

/-- One successful body of the sweep loop in `cleanup_old_peers`: collect
every record whose age exceeds the TTL and delete it. -/
def cleanup_expired (now : Nat) (peers : PeerMap) : PeerMap :=
  fun p =>
    match peers p with
    | some d => if now - d.last_updated > TTL_SECONDS then none else some d
    | none => none

/-- Outcome of one iteration of the sweep loop: either the body ran at time
`now`, or it raised an exception that the loop caught and logged. -/
inductive TickOutcome
  | ok (now : Nat)
  | raised

/-- One iteration of the sweep loop including its try/except guard: a
successful body sweeps, a raised one leaves the map unchanged. -/
def cleanup_tick : TickOutcome → PeerMap → PeerMap
  | TickOutcome.ok now, m => cleanup_expired now m
  | TickOutcome.raised, m => m

/-- The sweep loop `cleanup_old_peers` run over a finite schedule of
iteration outcomes: every iteration executes in order regardless of
earlier raised iterations. -/
def cleanup_old_peers (ticks : List TickOutcome) (m : PeerMap) : PeerMap :=
  ticks.foldl (fun acc t => cleanup_tick t acc) m

/-- Parsed form of a JSON text frame received on the push channel: a JSON
object with string fields, or some other well-formed JSON value (on which
the `get` call of the handler raises and is caught by the generic except
clause). -/
inductive JsonMsg
  | obj (fields : List (String × String))
  | nonObj
deriving DecidableEq, Repr

/-- An inbound websocket frame: text that parses as JSON, or malformed
text on which json.loads raises JSONDecodeError. -/
inductive Frame
  | text (m : JsonMsg)
  | malformed (raw : String)
deriving DecidableEq, Repr

/-- Log record emitted while processing one frame. -/
inductive LogEvent
  | debugMsg
  | warnInvalidJson
  | errorProcessing
deriving DecidableEq, Repr

/-- Python expression message.get("type") on a parsed JSON object. -/
def JsonMsg.getField (fields : List (String × String)) (key : String) :
    Option String :=
  (fields.find? (fun kv => kv.1 == key)).map Prod.snd

/-- One iteration of the receive loop of `websocket_endpoint`, processing a
single inbound frame for `client_id`: a ping object is answered with a pong
through `send_personal_message`, any other JSON is logged and ignored, and
a malformed frame is logged as a warning; in every case the loop continues
and the registry entry of the client is not removed by this step. -/
def websocket_message_step (sendOk : Bool) (client_id : String)
    (conns : Conns) : Frame → Conns × List ChanEffect × List LogEvent
  | Frame.malformed _ => (conns, [], [LogEvent.warnInvalidJson])
  | Frame.text JsonMsg.nonObj =>
      (conns, [], [LogEvent.debugMsg, LogEvent.errorProcessing])
  | Frame.text (JsonMsg.obj fields) =>
      if JsonMsg.getField fields "type" = some "ping" then
        let sent := ConnectionManager.send_personal_message sendOk conns
          WireMsg.pong client_id
        (sent.2.1, sent.2.2, [LogEvent.debugMsg])
      else (conns, [], [LogEvent.debugMsg])

/-- Sequence of drains of one peer at the given times, collecting the
responses and threading the map. -/
def drain_iter (peer_id : String) : List Nat → PeerMap →
    List CheckResponse × PeerMap
  | [], m => ([], m)
  | t :: ts, m =>
    let r := check_signals t m peer_id
    let rest := drain_iter peer_id ts r.2
    (r.1 :: rest.1, rest.2)

/-- The empty mailbox. -/
def emptyPeers : PeerMap := fun _ => none

/-- The empty registry. -/
def emptyConns : Conns := fun _ => none

/-- Fixture registry with one client registered. -/
def connsBob : Conns := fun q => if q = "bob" then some 7 else none

/-- Fixture record with an offer only. -/
def dB0 : PeerData :=
  { offer := some [("sdp", "o")], answer := none, candidates := [],
    last_updated := 0 }

/-- Fixture mailbox holding `dB0` under key B. -/
def peersB0 : PeerMap := fun q => if q = "B" then some dB0 else none

/-- Fixture record with a pending answer and one candidate. -/
def dB1 : PeerData :=
  { offer := none, answer := some [("sdp", "x")],
    candidates := [[("c", "1")]], last_updated := 100 }

/-- Fixture mailbox holding `dB1` under key B. -/
def peersB1 : PeerMap := fun q => if q = "B" then some dB1 else none

/-- Fixture server state with everything empty. -/
def stEmpty : ServerState := { peers := emptyPeers, conns := emptyConns }

/-- Fixture server state with mailbox `peersB0`. -/
def stB0 : ServerState := { peers := peersB0, conns := emptyConns }

/-- State after answer to P, candidate c1 to P, candidate c2 to P, at times
t1, t2 and t3, starting from `st` (the operation sequence of the one-shot
scenario). -/
def one_shot_script (st : ServerState) (P A : String) (Y c1 c2 : Signal)
    (t1 t2 t3 : Nat) : ServerState :=
  (handle_ice_candidate t3 ⟨A, P, c2⟩
    (handle_ice_candidate t2 ⟨A, P, c1⟩
      (handle_answer t1 ⟨A, P, Y⟩ st).1).1).1

/-! Helper lemmas shared between the claim theorems. -/

theorem get_peer_data_some (now : Nat) (m : PeerMap) (P : String)
    (d : PeerData) (h : m P = some d) : get_peer_data now m P = (d, m) := by
  simp [get_peer_data, h]

theorem get_peer_data_none (now : Nat) (m : PeerMap) (P : String)
    (h : m P = none) :
    get_peer_data now m P =
      (PeerData.fresh now,
        fun q => if q = P then some (PeerData.fresh now) else m q) := by
  simp [get_peer_data, h]

theorem handle_answer_at (now : Nat) (s : SignalData) (st : ServerState) :
    (handle_answer now s st).1.peers s.to_peer =
      some { (get_peer_data now st.peers s.to_peer).1 with
             answer := some s.signal, last_updated := now } := by
  simp [handle_answer]

theorem handle_offer_at (now : Nat) (sendOk : Bool) (s : SignalData)
    (st : ServerState) :
    (handle_offer now sendOk s st).1.peers s.to_peer =
      some { (get_peer_data now st.peers s.to_peer).1 with
             offer := some s.signal, last_updated := now } := by
  simp [handle_offer]

theorem handle_ice_candidate_at (now : Nat) (c : IceCandidate)
    (st : ServerState) :
    (handle_ice_candidate now c st).1.peers c.to_peer =
      some { (get_peer_data now st.peers c.to_peer).1 with
             candidates :=
               (get_peer_data now st.peers c.to_peer).1.candidates
                 ++ [c.candidate],
             last_updated := now } := by
  simp [handle_ice_candidate]

theorem check_signals_some (now : Nat) (m : PeerMap) (P : String)
    (d : PeerData) (h : m P = some d) :
    check_signals now m P =
      (CheckResponse.check d.offer d.answer (decide (0 < d.candidates.length))
          d.candidates now,
        fun q => if q = P then
            some { d with answer := none, candidates := [] }
          else m q) := by
  simp [check_signals, h]

/-- Claim C3: for a peer identifier P with no record, GET /check/{P}
returns the distinct no-peer response as a normal result and leaves the
mailbox unchanged, creating no record for P. -/
theorem check_no_peer_returns_no_peer_and_creates_nothing (now : Nat)
    (m : PeerMap) (P : String) (h : m P = none) :
    check_signals now m P = (CheckResponse.no_peer, m) := by
  simp [check_signals, h]

theorem check_no_peer_witness :
    emptyPeers "alice" = none ∧
    check_signals 5 emptyPeers "alice" = (CheckResponse.no_peer, emptyPeers) :=
  ⟨rfl,
    check_no_peer_returns_no_peer_and_creates_nothing 5 emptyPeers "alice" rfl⟩

/-- Claim C4: send_personal_message returns true when a channel is
registered and the send succeeds; on a send failure it removes the entry
exactly as disconnect does and returns false; on an absent identifier it
returns false, leaves the registry unchanged and performs no channel
operation. -/
theorem send_personal_message_spec (conns : Conns) (C : String)
    (msg : WireMsg) :
    (∀ ch, conns C = some ch →
      ConnectionManager.send_personal_message true conns msg C =
        (true, conns, [ChanEffect.sendText ch msg]) ∧
      ConnectionManager.send_personal_message false conns msg C =
        (false, ConnectionManager.disconnect conns C, [])) ∧
    (conns C = none → ∀ sendOk,
      ConnectionManager.send_personal_message sendOk conns msg C =
        (false, conns, [])) := by
  constructor
  · intro ch h
    constructor <;> simp [ConnectionManager.send_personal_message, h]
  · intro h sendOk
    simp [ConnectionManager.send_personal_message, h]

theorem send_personal_message_spec_witness :
    (connsBob "bob" = some 7 ∧
      ConnectionManager.send_personal_message true connsBob WireMsg.pong
          "bob" = (true, connsBob, [ChanEffect.sendText 7 WireMsg.pong]) ∧
      ConnectionManager.send_personal_message false connsBob WireMsg.pong
          "bob" = (false, ConnectionManager.disconnect connsBob "bob", [])) ∧
    (emptyConns "eve" = none ∧
      ConnectionManager.send_personal_message true emptyConns WireMsg.pong
          "eve" = (false, emptyConns, [])) :=
  ⟨⟨rfl, (send_personal_message_spec connsBob "bob" WireMsg.pong).1 7 rfl⟩,
    ⟨rfl, (send_personal_message_spec emptyConns "eve" WireMsg.pong).2 rfl
      true⟩⟩

/-- Claim C6: one successful sweep tick removes exactly the records whose
age exceeds the 30-minute TTL and keeps every younger record unchanged,
and a raised sweep iteration leaves the map unchanged while the loop still
runs all remaining iterations. -/
theorem sweep_tick_spec :
    (∀ now (m : PeerMap) P d, m P = some d →
      now - d.last_updated > TTL_SECONDS →
      cleanup_tick (TickOutcome.ok now) m P = none) ∧
    (∀ now (m : PeerMap) P d, m P = some d →
      ¬ now - d.last_updated > TTL_SECONDS →
      cleanup_tick (TickOutcome.ok now) m P = some d) ∧
    (∀ ticks (m : PeerMap),
      cleanup_old_peers (TickOutcome.raised :: ticks) m =
        cleanup_old_peers ticks m) := by
  refine ⟨?_, ?_, ?_⟩
  · intro now m P d h hage
    simp [cleanup_tick, cleanup_expired, h, hage]
  · intro now m P d h hage
    simp [cleanup_tick, cleanup_expired, h, hage]
  · intro ticks m
    rfl

theorem sweep_tick_spec_witness :
    (peersB0 "B" = some dB0 ∧ 2000 - dB0.last_updated > TTL_SECONDS ∧
      cleanup_tick (TickOutcome.ok 2000) peersB0 "B" = none) ∧
    (¬ 1000 - dB0.last_updated > TTL_SECONDS ∧
      cleanup_tick (TickOutcome.ok 1000) peersB0 "B" = some dB0) ∧
    cleanup_old_peers [TickOutcome.raised] peersB0 =
      cleanup_old_peers [] peersB0 :=
  ⟨⟨rfl, by decide,
      sweep_tick_spec.1 2000 peersB0 "B" dB0 rfl (by decide)⟩,
    ⟨by decide, sweep_tick_spec.2.1 1000 peersB0 "B" dB0 rfl (by decide)⟩,
    sweep_tick_spec.2.2 [] peersB0⟩

/-- Claim C5: after connect(C, chanA) then connect(C, chanB) the registry
resolves C to chanB only, other entries are untouched, the replacement
performs no operation on chanA (it is only accepted-and-registered, never
closed), and a send to C reaches chanB and never chanA. -/
theorem connect_replaces_entry (conns : Conns) (C : String)
    (chanA chanB : Channel) (msg : WireMsg) (hne : chanA ≠ chanB) :
    (ConnectionManager.connect
        (ConnectionManager.connect conns chanA C).1 chanB C).1 C =
      some chanB ∧
    (∀ Q, Q ≠ C →
      (ConnectionManager.connect
          (ConnectionManager.connect conns chanA C).1 chanB C).1 Q =
        conns Q) ∧
    (ConnectionManager.connect
        (ConnectionManager.connect conns chanA C).1 chanB C).2 =
      [ChanEffect.accept chanB] ∧
    (ConnectionManager.send_personal_message true
        (ConnectionManager.connect
          (ConnectionManager.connect conns chanA C).1 chanB C).1
        msg C).2.2 = [ChanEffect.sendText chanB msg] ∧
    ∀ sendOk m, ChanEffect.sendText chanA m ∉
      (ConnectionManager.send_personal_message sendOk
        (ConnectionManager.connect
          (ConnectionManager.connect conns chanA C).1 chanB C).1
        msg C).2.2 := by
  refine ⟨?_, ?_, rfl, ?_, ?_⟩
  · simp [ConnectionManager.connect]
  · intro Q hQ
    simp [ConnectionManager.connect, hQ]
  · simp [ConnectionManager.connect, ConnectionManager.send_personal_message]
  · intro sendOk m
    cases sendOk <;>
      simp [ConnectionManager.connect,
        ConnectionManager.send_personal_message, hne]

theorem connect_replaces_entry_witness :
    (1 : Channel) ≠ 2 ∧
    ((ConnectionManager.connect
        (ConnectionManager.connect emptyConns 1 "carol").1 2 "carol").1
        "carol" = some 2 ∧
      (∀ Q, Q ≠ "carol" →
        (ConnectionManager.connect
            (ConnectionManager.connect emptyConns 1 "carol").1 2
            "carol").1 Q = emptyConns Q) ∧
      (ConnectionManager.connect
          (ConnectionManager.connect emptyConns 1 "carol").1 2 "carol").2 =
        [ChanEffect.accept 2] ∧
      (ConnectionManager.send_personal_message true
          (ConnectionManager.connect
            (ConnectionManager.connect emptyConns 1 "carol").1 2
            "carol").1 WireMsg.pong "carol").2.2 =
        [ChanEffect.sendText 2 WireMsg.pong] ∧
      ∀ sendOk m, ChanEffect.sendText 1 m ∉
        (ConnectionManager.send_personal_message sendOk
          (ConnectionManager.connect
            (ConnectionManager.connect emptyConns 1 "carol").1 2
            "carol").1 WireMsg.pong "carol").2.2) :=
  ⟨by decide,
    connect_replaces_entry emptyConns "carol" 1 2 WireMsg.pong (by decide)⟩

/-- Claim C7: the offer, answer and ice-candidate handlers store the write
on the recipient record and return their success status unconditionally
(the offer handler even when the push fails), and only the offer handler
pushes on a channel — the answer and ice-candidate handlers emit no
channel operation at all. -/
theorem handlers_return_success_and_only_offer_pushes (now : Nat)
    (sendOk : Bool) (s : SignalData) (c : IceCandidate) (st : ServerState) :
    (handle_offer now sendOk s st).2.2 = "Offer received" ∧
    (handle_answer now s st).2.2 = "Answer received" ∧
    (handle_ice_candidate now c st).2.2 = "ICE candidate received" ∧
    (handle_answer now s st).2.1 = [] ∧
    (handle_ice_candidate now c st).2.1 = [] ∧
    (∃ d, (handle_offer now sendOk s st).1.peers s.to_peer = some d ∧
      d.offer = some s.signal) ∧
    (∃ d, (handle_answer now s st).1.peers s.to_peer = some d ∧
      d.answer = some s.signal) ∧
    (∃ d pre, (handle_ice_candidate now c st).1.peers c.to_peer = some d ∧
      d.candidates = pre ++ [c.candidate]) ∧
    (∀ ch, st.conns s.to_peer = some ch →
      (handle_offer now true s st).2.1 =
        [ChanEffect.sendText ch (WireMsg.offerMsg s.from_peer s.signal)]) ∧
    (handle_offer now false s st).2.1 = [] := by
  refine ⟨rfl, rfl, rfl, rfl, rfl, ⟨_, handle_offer_at now sendOk s st, rfl⟩,
    ⟨_, handle_answer_at now s st, rfl⟩,
    ⟨_, _, handle_ice_candidate_at now c st, rfl⟩, ?_, ?_⟩
  · intro ch h
    simp [handle_offer, ConnectionManager.send_personal_message, h]
  · cases h : st.conns s.to_peer <;>
      simp [handle_offer, ConnectionManager.send_personal_message, h]

theorem handlers_return_success_witness :
    (handle_offer 3 false ⟨"A", "B", [("sdp", "o")]⟩ stEmpty).2.2 =
        "Offer received" ∧
    (handle_answer 3 ⟨"A", "B", [("sdp", "o")]⟩ stEmpty).2.2 =
        "Answer received" ∧
    (handle_ice_candidate 3 ⟨"A", "B", [("c", "1")]⟩ stEmpty).2.2 =
        "ICE candidate received" ∧
    (handle_answer 3 ⟨"A", "B", [("sdp", "o")]⟩ stEmpty).2.1 = [] ∧
    (handle_ice_candidate 3 ⟨"A", "B", [("c", "1")]⟩ stEmpty).2.1 = [] ∧
    (∃ d, (handle_offer 3 false ⟨"A", "B", [("sdp", "o")]⟩
        stEmpty).1.peers "B" = some d ∧ d.offer = some [("sdp", "o")]) ∧
    (∃ d, (handle_answer 3 ⟨"A", "B", [("sdp", "o")]⟩ stEmpty).1.peers "B" =
        some d ∧ d.answer = some [("sdp", "o")]) ∧
    (∃ d pre, (handle_ice_candidate 3 ⟨"A", "B", [("c", "1")]⟩
        stEmpty).1.peers "B" = some d ∧ d.candidates = pre ++ [[("c", "1")]]) ∧
    (∀ ch, stEmpty.conns "B" = some ch →
      (handle_offer 3 true ⟨"A", "B", [("sdp", "o")]⟩ stEmpty).2.1 =
        [ChanEffect.sendText ch (WireMsg.offerMsg "A" [("sdp", "o")])]) ∧
    (handle_offer 3 false ⟨"A", "B", [("sdp", "o")]⟩ stEmpty).2.1 = [] :=
  handlers_return_success_and_only_offer_pushes 3 false
    ⟨"A", "B", [("sdp", "o")]⟩ ⟨"A", "B", [("c", "1")]⟩ stEmpty

/-- Claim C10: each write touches only its own field of the recipient
record — the offer write changes only offer and the timestamp, the answer
write only answer and the timestamp, and the candidate write only appends
to candidates and refreshes the timestamp, keeping the earlier candidates
as a prefix. -/
theorem writes_touch_only_their_field (now : Nat) (sendOk : Bool)
    (s : SignalData) (c : IceCandidate) (st : ServerState) (d : PeerData) :
    (st.peers s.to_peer = some d →
      (handle_offer now sendOk s st).1.peers s.to_peer =
        some { d with offer := some s.signal, last_updated := now }) ∧
    (st.peers s.to_peer = some d →
      (handle_answer now s st).1.peers s.to_peer =
        some { d with answer := some s.signal, last_updated := now }) ∧
    (st.peers c.to_peer = some d →
      (handle_ice_candidate now c st).1.peers c.to_peer =
        some { d with
          candidates := d.candidates ++ [c.candidate],
          last_updated := now }) := by
  refine ⟨?_, ?_, ?_⟩ <;> intro h
  · rw [handle_offer_at, get_peer_data_some now st.peers s.to_peer d h]
  · rw [handle_answer_at, get_peer_data_some now st.peers s.to_peer d h]
  · rw [handle_ice_candidate_at, get_peer_data_some now st.peers c.to_peer d h]

theorem writes_touch_only_their_field_witness :
    (peersB0 "B" = some dB0 ∧
      (handle_offer 9 false ⟨"A", "B", [("sdp", "n")]⟩ stB0).1.peers "B" =
        some { dB0 with offer := some [("sdp", "n")], last_updated := 9 } ∧
      (handle_answer 9 ⟨"A", "B", [("sdp", "a")]⟩ stB0).1.peers "B" =
        some { dB0 with answer := some [("sdp", "a")], last_updated := 9 } ∧
      (handle_ice_candidate 9 ⟨"A", "B", [("c", "2")]⟩ stB0).1.peers "B" =
        some { dB0 with
          candidates := dB0.candidates ++ [[("c", "2")]],
          last_updated := 9 }) :=
  ⟨rfl,
    (writes_touch_only_their_field 9 false ⟨"A", "B", [("sdp", "n")]⟩
      ⟨"A", "B", [("c", "2")]⟩ stB0 dB0).1 rfl,
    (writes_touch_only_their_field 9 false ⟨"A", "B", [("sdp", "a")]⟩
      ⟨"A", "B", [("c", "2")]⟩ stB0 dB0).2.1 rfl,
    (writes_touch_only_their_field 9 false ⟨"A", "B", [("sdp", "n")]⟩
      ⟨"A", "B", [("c", "2")]⟩ stB0 dB0).2.2 rfl⟩

/-- Counterexample to claim C8: the drain of peer B at time 200 clears
the pending answer and candidates of the record — a mutation of record
fields — yet the record keeps last_updated = 100, not the operation time
200.  So lastUpdated is not refreshed on every mutation of the record. -/
theorem drain_leaves_last_updated_unchanged :
    peersB1 "B" = some dB1 ∧
    dB1.answer = some [("sdp", "x")] ∧
    dB1.candidates = [[("c", "1")]] ∧
    (check_signals 200 peersB1 "B").2 "B" =
      some { offer := none, answer := none, candidates := [],
             last_updated := 100 } ∧
    (100 : Nat) ≠ 200 := by
  refine ⟨rfl, rfl, rfl, ?_, by decide⟩
  rw [check_signals_some 200 peersB1 "B" dB1 rfl]
  simp [dB1]

/-- Claim C8 as amended: lastUpdated is refreshed to the operation time by
every write (offer, answer, candidate), while the clearing performed by a
drain leaves lastUpdated (and the offer) unchanged. -/
theorem last_updated_refreshed_on_writes (now tnow : Nat) (sendOk : Bool)
    (s : SignalData) (c : IceCandidate) (st : ServerState) :
    (∃ d, (handle_offer now sendOk s st).1.peers s.to_peer = some d ∧
      d.last_updated = now) ∧
    (∃ d, (handle_answer now s st).1.peers s.to_peer = some d ∧
      d.last_updated = now) ∧
    (∃ d, (handle_ice_candidate now c st).1.peers c.to_peer = some d ∧
      d.last_updated = now) ∧
    (∀ P d, st.peers P = some d →
      (check_signals tnow st.peers P).2 P =
        some { d with answer := none, candidates := [] }) :=
  ⟨⟨_, handle_offer_at now sendOk s st, rfl⟩,
    ⟨_, handle_answer_at now s st, rfl⟩,
    ⟨_, handle_ice_candidate_at now c st, rfl⟩,
    fun P d h => by rw [check_signals_some tnow st.peers P d h]; simp⟩

theorem last_updated_refreshed_on_writes_witness :
    (∃ d, (handle_offer 9 false ⟨"A", "B", [("sdp", "n")]⟩ stB0).1.peers
        "B" = some d ∧ d.last_updated = 9) ∧
    (∃ d, (handle_answer 9 ⟨"A", "B", [("sdp", "n")]⟩ stB0).1.peers "B" =
        some d ∧ d.last_updated = 9) ∧
    (∃ d, (handle_ice_candidate 9 ⟨"A", "B", [("c", "2")]⟩ stB0).1.peers
        "B" = some d ∧ d.last_updated = 9) ∧
    (∀ P d, stB0.peers P = some d →
      (check_signals 11 stB0.peers P).2 P =
        some { d with answer := none, candidates := [] }) :=
  last_updated_refreshed_on_writes 9 11 false ⟨"A", "B", [("sdp", "n")]⟩
    ⟨"A", "B", [("c", "2")]⟩ stB0

/-- Claim C9: on the push channel, a frame parsing to a JSON object whose
type field is "ping" is answered with a pong on the channel registered for
the client; any other well-formed JSON frame is logged and gets no reply
and no registry change; a malformed frame is logged as a warning and the
registry entry of the client stays in place. -/
theorem websocket_frame_handling (client_id : String) (conns : Conns) :
    (∀ ch fields, conns client_id = some ch →
      JsonMsg.getField fields "type" = some "ping" →
      websocket_message_step true client_id conns
          (Frame.text (JsonMsg.obj fields)) =
        (conns, [ChanEffect.sendText ch WireMsg.pong],
          [LogEvent.debugMsg])) ∧
    (∀ sendOk fields, JsonMsg.getField fields "type" ≠ some "ping" →
      websocket_message_step sendOk client_id conns
          (Frame.text (JsonMsg.obj fields)) =
        (conns, [], [LogEvent.debugMsg])) ∧
    (∀ sendOk, websocket_message_step sendOk client_id conns
        (Frame.text JsonMsg.nonObj) =
      (conns, [], [LogEvent.debugMsg, LogEvent.errorProcessing])) ∧
    (∀ sendOk raw, websocket_message_step sendOk client_id conns
        (Frame.malformed raw) =
      (conns, [], [LogEvent.warnInvalidJson])) := by
  refine ⟨?_, ?_, fun sendOk => rfl, fun sendOk raw => rfl⟩
  · intro ch fields hconn hping
    simp [websocket_message_step, hping,
      ConnectionManager.send_personal_message, hconn]
  · intro sendOk fields hping
    simp [websocket_message_step, hping]

theorem websocket_frame_handling_witness :
    (connsBob "bob" = some 7 ∧
      JsonMsg.getField [("type", "ping")] "type" = some "ping" ∧
      websocket_message_step true "bob" connsBob
          (Frame.text (JsonMsg.obj [("type", "ping")])) =
        (connsBob, [ChanEffect.sendText 7 WireMsg.pong],
          [LogEvent.debugMsg])) ∧
    (JsonMsg.getField [("type", "hello")] "type" ≠ some "ping" ∧
      websocket_message_step true "bob" connsBob
          (Frame.text (JsonMsg.obj [("type", "hello")])) =
        (connsBob, [], [LogEvent.debugMsg])) ∧
    websocket_message_step true "bob" connsBob (Frame.text JsonMsg.nonObj) =
      (connsBob, [], [LogEvent.debugMsg, LogEvent.errorProcessing]) ∧
    websocket_message_step true "bob" connsBob (Frame.malformed "oops") =
      (connsBob, [], [LogEvent.warnInvalidJson]) :=
  ⟨⟨rfl, by decide,
      (websocket_frame_handling "bob" connsBob).1 7 [("type", "ping")] rfl
        (by decide)⟩,
    ⟨by decide,
      (websocket_frame_handling "bob" connsBob).2.1 true [("type", "hello")]
        (by decide)⟩,
    (websocket_frame_handling "bob" connsBob).2.2.1 true,
    (websocket_frame_handling "bob" connsBob).2.2.2 true "oops"⟩

/-- Claim C1: starting from a state where P has no accumulated candidates,
after an answer Y and candidates c1 then c2 are written to P, the first
drain returns answer Y and the candidates [c1, c2] in append order, and an
immediately following second drain returns an empty answer and an empty
candidate sequence — answer and candidates are one-shot. -/
theorem answer_and_candidates_one_shot (st : ServerState) (P A : String)
    (Y c1 c2 : Signal) (t1 t2 t3 t4 t5 : Nat)
    (hc : ∀ d, st.peers P = some d → d.candidates = []) :
    (∃ off,
      (check_signals t4 (one_shot_script st P A Y c1 c2 t1 t2 t3).peers P).1 =
        CheckResponse.check off (some Y) true [c1, c2] t4) ∧
    (∃ off,
      (check_signals t5
        (check_signals t4
          (one_shot_script st P A Y c1 c2 t1 t2 t3).peers P).2 P).1 =
        CheckResponse.check off none false [] t5) := by
  cases h : st.peers P with
  | some d =>
    have hcd := hc d h
    simp [one_shot_script, handle_answer, handle_ice_candidate,
      get_peer_data, check_signals, h, hcd]
  | none =>
    simp [one_shot_script, handle_answer, handle_ice_candidate,
      get_peer_data, check_signals, h, PeerData.fresh]

theorem answer_and_candidates_one_shot_witness :
    (∀ d, stEmpty.peers "B" = some d → d.candidates = []) ∧
    ((∃ off,
      (check_signals 4 (one_shot_script stEmpty "B" "A" [("sdp", "a")]
        [("c", "1")] [("c", "2")] 1 2 3).peers "B").1 =
        CheckResponse.check off (some [("sdp", "a")]) true
          [[("c", "1")], [("c", "2")]] 4) ∧
    (∃ off,
      (check_signals 5
        (check_signals 4 (one_shot_script stEmpty "B" "A" [("sdp", "a")]
          [("c", "1")] [("c", "2")] 1 2 3).peers "B").2 "B").1 =
        CheckResponse.check off none false [] 5)) :=
  ⟨fun d hd => by simp [stEmpty, emptyPeers] at hd,
    answer_and_candidates_one_shot stEmpty "B" "A" [("sdp", "a")]
      [("c", "1")] [("c", "2")] 1 2 3 4 5
      (fun d hd => by simp [stEmpty, emptyPeers] at hd)⟩

/-- Drain preserves a stored offer: as long as the record of P carries
offer X, any sequence of drains of P each reports offer X and leaves the
record still carrying offer X. -/
theorem drain_iter_offer_invariant (P : String) (X : Signal)
    (ts : List Nat) :
    ∀ (m : PeerMap) (d : PeerData), m P = some d → d.offer = some X →
      (∀ r ∈ (drain_iter P ts m).1,
        ∃ ans hc cs tt, r = CheckResponse.check (some X) ans hc cs tt) ∧
      (∃ d2, (drain_iter P ts m).2 P = some d2 ∧ d2.offer = some X) := by
  induction ts with
  | nil =>
    intro m d h ho
    exact ⟨by simp [drain_iter], ⟨d, h, ho⟩⟩
  | cons t ts ih =>
    intro m d h ho
    have hstep := check_signals_some t m P d h
    have h1 : (fun q => if q = P then
        some { d with answer := none, candidates := [] } else m q) P =
        some { d with answer := none, candidates := [] } := by simp
    have ih1 := ih
      (fun q => if q = P then
        some { d with answer := none, candidates := [] } else m q)
      ({ d with answer := none, candidates := [] }) h1 ho
    constructor
    · intro r hr
      simp only [drain_iter, hstep, List.mem_cons] at hr
      cases hr with
      | inl hr =>
        exact ⟨d.answer, decide (0 < d.candidates.length), d.candidates, t,
          by rw [hr, ho]⟩
      | inr hr => exact ih1.1 r hr
    · simp only [drain_iter, hstep]
      exact ih1.2

/-- Claim C2: after an offer X is stored for P, every drain in any
subsequent sequence of drains reports offer = X, and the record of P still
carries offer X afterwards — drain never clears or modifies the stored
offer. -/
theorem offer_persists_across_drains (st : ServerState) (sendOk : Bool)
    (s : SignalData) (now : Nat) (ts : List Nat) :
    (∀ r ∈ (drain_iter s.to_peer ts
        (handle_offer now sendOk s st).1.peers).1,
      ∃ ans hc cs tt, r = CheckResponse.check (some s.signal) ans hc cs tt) ∧
    (∃ d, (drain_iter s.to_peer ts
        (handle_offer now sendOk s st).1.peers).2 s.to_peer = some d ∧
      d.offer = some s.signal) :=
  drain_iter_offer_invariant s.to_peer s.signal ts
    (handle_offer now sendOk s st).1.peers
    ({ (get_peer_data now st.peers s.to_peer).1 with
       offer := some s.signal, last_updated := now })
    (handle_offer_at now sendOk s st) rfl

theorem offer_persists_across_drains_witness :
    (∀ r ∈ (drain_iter "B" [4, 5]
        (handle_offer 3 false ⟨"A", "B", [("sdp", "o")]⟩ stEmpty).1.peers).1,
      ∃ ans hc cs tt,
        r = CheckResponse.check (some [("sdp", "o")]) ans hc cs tt) ∧
    (∃ d, (drain_iter "B" [4, 5]
        (handle_offer 3 false ⟨"A", "B", [("sdp", "o")]⟩
          stEmpty).1.peers).2 "B" = some d ∧
      d.offer = some [("sdp", "o")]) :=
  offer_persists_across_drains stEmpty false ⟨"A", "B", [("sdp", "o")]⟩ 3
    [4, 5]

end SignalServer
